import Mathlib

/-!
Verification of the pagespeed batch-analysis tool
(`pagespeed_insights_tool.py`) against its natural-language
specification.

The Python source is shallowly embedded: pure fragments become Lean
functions, the retry loop becomes a scripted-response trace function,
pandas rows and frames become explicit list-based structures, and
numeric values become rationals.  Python string comparison (used by
pandas when it sorts tied mode values) is embedded as code-point
lexicographic comparison, which coincides with Python `<` on `str`.
-/

namespace PageSpeed

/-! ## Constants from the source -/

/-- Constant `MAX_RETRIES = 3` from the source. -/
def MAX_RETRIES : Nat := 3

/-- Constant `RETRY_BASE_DELAY = 2.0` (seconds) from the source. -/
def RETRY_BASE_DELAY : ℚ := 2

/-- Constant `RETRYABLE_STATUS_CODES` from the source: 429, 500, 503. -/
def RETRYABLE_STATUS_CODES : List Nat := [429, 500, 503]

/-- Constant `BUDGET_EXIT_CODE = 2` from the source. -/
def BUDGET_EXIT_CODE : Nat := 2

/-- Constant `BUDGET_METRIC_MAP` from the source: budget key ↦ (metric column, comparison
direction), in source insertion order. -/
def BUDGET_METRIC_MAP : List (String × String × String) :=
  [("min_performance_score", "performance_score", ">="),
   ("min_accessibility_score", "accessibility_score", ">="),
   ("min_best_practices_score", "best_practices_score", ">="),
   ("min_seo_score", "seo_score", ">="),
   ("max_lcp_ms", "lab_lcp_ms", "<="),
   ("max_cls", "lab_cls", "<="),
   ("max_tbt_ms", "lab_tbt_ms", "<="),
   ("max_fcp_ms", "lab_fcp_ms", "<=")]

/-- Constant `FIELD_METRICS` from the source: api key, output value
column, output category column. -/
def FIELD_METRICS : List (String × String × String) :=
  [("FIRST_CONTENTFUL_PAINT_MS", "field_fcp_ms", "field_fcp_category"),
   ("LARGEST_CONTENTFUL_PAINT_MS", "field_lcp_ms", "field_lcp_category"),
   ("CUMULATIVE_LAYOUT_SHIFT_SCORE", "field_cls", "field_cls_category"),
   ("INTERACTION_TO_NEXT_PAINT", "field_inp_ms", "field_inp_category"),
   ("FIRST_INPUT_DELAY_MS", "field_fid_ms", "field_fid_category"),
   ("EXPERIMENTAL_TIME_TO_FIRST_BYTE", "field_ttfb_ms", "field_ttfb_category")]

/-! ## Fetcher / retry policy (`fetch_pagespeed_result`) -/

/-- Abstract view of a response JSON body: whether it embeds a top-level
`error` object, and whether it carries the `lighthouseResult` object. -/
structure ApiBody where
  hasAppError : Bool
  hasLighthouseResult : Bool
deriving DecidableEq

/-- One scripted outcome of `requests.get` inside the retry loop: either
an HTTP response (status, optional parsed `Retry-After` header, body) or
a transport-level exception (`requests.RequestException`). -/
inductive ApiResp where
  | http (status : Nat) (retryAfterHint : Option ℚ) (body : ApiBody)
  | transportFail
deriving DecidableEq

/-- Observable events of one `fetch_pagespeed_result` call: the start of
an HTTP attempt, and a `time.sleep` of the backoff wait. -/
inductive FetchEvent where
  | attemptStart (n : Nat)
  | backoffSleep (w : ℚ)
deriving DecidableEq

/-- The exponential wait `RETRY_BASE_DELAY * (2**attempt)` — a float
times a Python int. -/
def expBackoff (attempt : Nat) : ℚ :=
  RETRY_BASE_DELAY * ((2 ^ attempt : ℕ) : ℚ)

/-- The wait computation for a retryable status:
`retry_after = response.headers.get("Retry-After")`;
`if retry_after and response.status_code == 429: wait_time =
float(retry_after) else: wait_time = RETRY_BASE_DELAY * (2**attempt)`. -/
def waitTimeFor (attempt : Nat) (status : Nat) (retryAfterHint : Option ℚ) : ℚ :=
  match retryAfterHint with
  | some h => if status == 429 then h else expBackoff attempt
  | none => expBackoff attempt

/-- The retry loop of `fetch_pagespeed_result`, one case per branch of
the Python loop body.  `responses n` scripts what the `n`-th
`requests.get` does.  Returns the successfully returned body (`none`
models a raised `PageSpeedError`) together with the event trace.  The
fuel argument counts the remaining iterations of
`range(MAX_RETRIES + 1)`; the `attempt < MAX_RETRIES` tests mirror the
guards that the source places before `time.sleep(...) ; continue`. -/
def fetchAux (responses : Nat → ApiResp) : Nat → Nat → Option ApiBody × List FetchEvent
  | 0, _ => (none, [])
  | fuel + 1, attempt =>
    match responses attempt with
    | ApiResp.http status hint body =>
      if status == 200 then
        (some body, [FetchEvent.attemptStart attempt])
      else if RETRYABLE_STATUS_CODES.contains status then
        if attempt < MAX_RETRIES then
          let r := fetchAux responses fuel (attempt + 1)
          (r.1, FetchEvent.attemptStart attempt ::
            FetchEvent.backoffSleep (waitTimeFor attempt status hint) :: r.2)
        else
          (none, [FetchEvent.attemptStart attempt])
      else
        (none, [FetchEvent.attemptStart attempt])
    | ApiResp.transportFail =>
      if attempt < MAX_RETRIES then
        let r := fetchAux responses fuel (attempt + 1)
        (r.1, FetchEvent.attemptStart attempt ::
          FetchEvent.backoffSleep (expBackoff attempt) :: r.2)
      else
        (none, [FetchEvent.attemptStart attempt])

/-- A whole `fetch_pagespeed_result` call: the loop body runs for
attempts `0 .. MAX_RETRIES`. -/
def fetchTrace (responses : Nat → ApiResp) : Option ApiBody × List FetchEvent :=
  fetchAux responses (MAX_RETRIES + 1) 0

/-- Script a fetch from a finite list of outcomes (outcomes beyond the
list are transport failures; the claims only use scripts that cover all
attempts actually made). -/
def scriptResp (script : List ApiResp) : Nat → ApiResp :=
  fun n => script.getD n ApiResp.transportFail

/-- The result/trace of a fetch driven by a finite script. -/
def fetchScripted (script : List ApiResp) : Option ApiBody × List FetchEvent :=
  fetchTrace (scriptResp script)

/-- The sleep seconds recorded by a fetch event, if any. -/
def sleepOfEvent : FetchEvent → Option ℚ
  | FetchEvent.backoffSleep w => some w
  | FetchEvent.attemptStart _ => none

/-- The sequence of backoff sleeps observed during one scripted fetch. -/
def fetchSleeps (script : List ApiResp) : List ℚ :=
  (fetchScripted script).2.filterMap sleepOfEvent

/-- Whether a fetch event is the start of an HTTP attempt. -/
def isAttemptEvent : FetchEvent → Bool
  | FetchEvent.attemptStart _ => true
  | FetchEvent.backoffSleep _ => false

/-- Number of HTTP attempts performed during one fetch. -/
def fetchAttemptCount (responses : Nat → ApiResp) : Nat :=
  ((fetchTrace responses).2.filter isAttemptEvent).length

/-- An ordinary successful body for scripts. -/
def okBody : ApiBody := ⟨false, true⟩

/-! ## Per-task pacing (`process_single` inside `process_urls`) -/

/-- Observable events of one `process_single` call: the semaphore-guarded
pacing block (which sleeps out the remaining inter-dispatch delay), then
the events of the single embedded `fetch_pagespeed_result` call. -/
inductive TaskEvent where
  | pacingAcquire
  | attemptStart (n : Nat)
  | backoffSleep (w : ℚ)
deriving DecidableEq

/-- Lift a fetch event into the task-level event alphabet. -/
def liftFetchEvent : FetchEvent → TaskEvent
  | FetchEvent.attemptStart n => TaskEvent.attemptStart n
  | FetchEvent.backoffSleep w => TaskEvent.backoffSleep w

/-- Event trace of `process_single`: the `with semaphore:` pacing block
runs once, before `fetch_pagespeed_result` is called. -/
def processSingleTrace (responses : Nat → ApiResp) : List TaskEvent :=
  TaskEvent.pacingAcquire :: (fetchTrace responses).2.map liftFetchEvent

/-- Whether a task event is the pacing block. -/
def isPacingEvent : TaskEvent → Bool
  | TaskEvent.pacingAcquire => true
  | TaskEvent.attemptStart _ => false
  | TaskEvent.backoffSleep _ => false

/-- Whether a task event is the start of an HTTP attempt. -/
def isTaskAttemptEvent : TaskEvent → Bool
  | TaskEvent.pacingAcquire => false
  | TaskEvent.attemptStart _ => true
  | TaskEvent.backoffSleep _ => false

/-- Number of pacing acquisitions in a task trace. -/
def pacingCount (t : List TaskEvent) : Nat := (t.filter isPacingEvent).length

/-- Number of HTTP attempts in a task trace. -/
def taskAttemptCount (t : List TaskEvent) : Nat := (t.filter isTaskAttemptEvent).length

/-! ## Dispatcher (`process_urls`) -/

/-- The computation `effective_workers = min(workers, total_tasks)`. -/
def effectiveWorkers (workers totalTasks : Nat) : Nat := min workers totalTasks

/-- The task list build: `base_tasks = [(url, strategy) for url in urls
for strategy in strategies]; task_list = base_tasks * runs`. -/
def buildTaskList (urls strategies : List String) (runs : Nat) : List (String × String) :=
  (List.replicate runs (urls.flatMap (fun u => strategies.map (fun s => (u, s))))).flatten

/-- Dispatch of `process_urls`: `runOne i t` abstracts the row produced
by `process_single` for task `t` at task index `i` (a metrics row on
success, an error row when retries are exhausted).  In the sequential
branch results are appended in input order; in the concurrent branch
they are appended in `as_completed` order, modelled by the
`completionOrder` index permutation. -/
def processUrlsResults (workers : Nat) (tasks : List (String × String))
    (runOne : Nat → String × String → α) (completionOrder : List Nat) : List α :=
  if effectiveWorkers workers tasks.length ≤ 1 then
    tasks.enum.map (fun p => runOne p.1 p.2)
  else
    completionOrder.filterMap (fun i => (tasks.get? i).map (runOne i))

/-! ## Field-metric extraction (`extract_metrics`, field-metric loop) -/

/-- Code-point comparison on char lists; `a < b` for Python strings. -/
def charsLt : List Char → List Char → Bool
  | [], [] => false
  | [], _ :: _ => true
  | _ :: _, [] => false
  | a :: as, b :: bs => a.toNat < b.toNat || (a.toNat == b.toNat && charsLt as bs)

/-- Python `<` on strings. -/
def strLt (a b : String) : Bool := charsLt a.data b.data

/-- Whether `pat` matches at the head of `hay`. -/
def leadMatch : List Char → List Char → Bool
  | [], _ => true
  | _ :: _, [] => false
  | a :: as, b :: bs => a == b && leadMatch as bs

/-- Whether `pat` occurs contiguously anywhere in `hay`. -/
def hasSub (pat : List Char) : List Char → Bool
  | [] => leadMatch pat []
  | h :: t => leadMatch pat (h :: t) || hasSub pat t

/-- The Python `needle in hay` substring test. -/
def pyIn (needle hay : String) : Bool := hasSub needle.data hay.data

/-- The Python 3 `round` to an integer: round half to even. -/
def roundHalfEven (q : ℚ) : ℤ :=
  let f : ℤ := ⌊q⌋
  if q - f = 1/2 then (if 2 ∣ f then f else f + 1)
  else if q - f < 1/2 then f else f + 1

/-- Python 3 `round(x, 4)`. -/
def pyRound4 (q : ℚ) : ℚ := (roundHalfEven (q * 10000) : ℚ) / 10000

/-- Data of one field metric in `loadingExperience.metrics`. -/
structure FieldMetricData where
  percentile : Option ℚ
  category : Option String
deriving DecidableEq

/-- The lookup `metric_data = field_metrics_data.get(api_key, \x7b\x7d)`. -/
def lookupFieldMetric (metricsData : List (String × FieldMetricData))
    (apiKey : String) : FieldMetricData :=
  (metricsData.lookup apiKey).getD ⟨none, none⟩

/-- The field-metric value column computed by `extract_metrics`:
`if percentile is not None and "CLS" in api_key:
row[value_col] = round(percentile / 100, 4) else:
row[value_col] = percentile`. -/
def extractFieldValue (metricsData : List (String × FieldMetricData))
    (apiKey : String) : Option ℚ :=
  match (lookupFieldMetric metricsData apiKey).percentile with
  | some p => if pyIn "CLS" apiKey then some (pyRound4 (p / 100)) else some p
  | none => none

/-! ## Multi-run aggregation, categorical step (`aggregate_multi_run`) -/

/-- The success mask used by both `aggregate_multi_run` and
`evaluate_budget`: `error.isna() | (error == "")`. -/
def isSuccessErr (e : Option String) : Bool := e.isNone || e == some ""

/-- The values of a series achieving the maximal multiplicity. -/
def modeCandidates (vs : List String) : List String :=
  vs.filter (fun v => vs.all (fun w => vs.count w ≤ vs.count v))

/-- Minimum of a string list under Python string order. -/
def listMinStr : List String → Option String
  | [] => none
  | x :: xs => some (xs.foldl (fun a b => if strLt b a then b else a) x)

/-- pandas `values.mode().iloc[0]`: `Series.mode` returns the tied
most-frequent values sorted ascending, so `.iloc[0]` selects the
smallest tied value in Python string order. -/
def modeIloc0 (vs : List String) : Option String := listMinStr (modeCandidates vs)

/-- The categorical-column reduction of `aggregate_multi_run`:
`values = successful_runs[col].dropna(); row[col] =
values.mode().iloc[0] if len(values) > 0 else None`. -/
def aggCategorical (vals : List (Option String)) : Option String :=
  let vs := vals.filterMap id
  if vs.isEmpty then none else modeIloc0 vs

/-- The non-null categorical values contributed by the successful rows
of one `(url, strategy)` group: each group member carries its `error`
cell and its categorical cell. -/
def groupSuccessVals (group : List (Option String × Option String)) : List String :=
  ((group.filter (fun r => isSuccessErr r.1)).map Prod.snd).filterMap id

/-- The categorical reduction applied to one `(url, strategy)` group:
only rows passing the success mask contribute. -/
def aggCategoricalGroup (group : List (Option String × Option String)) : Option String :=
  aggCategorical ((group.filter (fun r => isSuccessErr r.1)).map Prod.snd)

/-- Modelled from the spec: statistical mode with ties broken in favor
of the first-encountered value in row order (the description given by
the spec for the categorical reduction), written to be compared against
the source-derived `aggCategorical`. -/
def modeFirstEncountered (vs : List String) : Option String :=
  vs.find? (fun v => vs.all (fun w => vs.count w ≤ vs.count v))

/-- Modelled from the spec: the categorical group reduction using the
first-encountered tie-break. -/
def aggCategoricalGroupSpec (group : List (Option String × Option String)) : Option String :=
  let vs := ((group.filter (fun r => isSuccessErr r.1)).map Prod.snd).filterMap id
  if vs.isEmpty then none else modeFirstEncountered vs

/-! ## Budget evaluator (`evaluate_budget`, `_apply_budget`) -/

/-- One recorded threshold violation. -/
structure BudgetViolation where
  metric : String
  actual : ℚ
  threshold : ℚ
  op : String
deriving DecidableEq

/-- One per-row result of `evaluate_budget`. -/
structure RowResult where
  url : String
  strategy : String
  verdict : String
  violations : List BudgetViolation
deriving DecidableEq

/-- The verdict dict returned by `evaluate_budget`. -/
structure BudgetVerdict where
  budget_name : String
  verdict : String
  passed : Nat
  failed : Nat
  total : Nat
  errors_skipped : Nat
  results : List RowResult
deriving DecidableEq

/-- One row of the metrics table: url, strategy, the `error` cell, and
the numeric metric cells present in the row (`none` models both a
missing column value and NaN, which `evaluate_budget` treats alike). -/
structure MetricRow where
  url : String
  strategy : String
  error : Option String
  vals : List (String × ℚ)
deriving DecidableEq

/-- The access `row.get(column_name)` restricted to numeric cells. -/
def MetricRow.get (r : MetricRow) (col : String) : Option ℚ := r.vals.lookup col

/-- A DataFrame: its rows and its column index. -/
structure Frame where
  rows : List MetricRow
  cols : List String
deriving DecidableEq

/-- A budget: `thresholds` mapping and the name from `meta`. -/
structure Budget where
  name : String
  thresholds : List (String × ℚ)
deriving DecidableEq

/-- The evaluable rows: `dataframe[dataframe["error"].isna() |
(dataframe["error"] == "")]` when the `error` column exists, the whole
frame otherwise. -/
def validRows (df : Frame) : List MetricRow :=
  if df.cols.contains "error" then df.rows.filter (fun r => isSuccessErr r.error)
  else df.rows

/-- The violations collected for one evaluable row: one pass over
`BUDGET_METRIC_MAP`, skipping keys absent from the thresholds, columns
absent from the frame, and unset/NaN actual values; `>=` rules violate
on `actual < threshold`, `<=` rules on `actual > threshold`. -/
def rowViolations (df : Frame) (thresholds : List (String × ℚ))
    (r : MetricRow) : List BudgetViolation :=
  BUDGET_METRIC_MAP.filterMap (fun e =>
    match thresholds.lookup e.1 with
    | none => none
    | some thr =>
      if df.cols.contains e.2.1 then
        match r.get e.2.1 with
        | none => none
        | some actual =>
          if e.2.2 == ">=" && decide (actual < thr) then
            some ⟨e.2.1, actual, thr, e.2.2⟩
          else if e.2.2 == "<=" && decide (actual > thr) then
            some ⟨e.2.1, actual, thr, e.2.2⟩
          else none
      else none)

/-- The per-row result built inside the loop of `evaluate_budget`:
`row_verdict = "fail" if violations else "pass"`. -/
def rowResultFor (df : Frame) (budget : Budget) (r : MetricRow) : RowResult :=
  let vios := rowViolations df budget.thresholds r
  ⟨r.url, r.strategy, if vios.isEmpty then "pass" else "fail", vios⟩

/-- The `results` list of `evaluate_budget`: one entry per evaluable
row, in row order. -/
def budgetResults (df : Frame) (budget : Budget) : List RowResult :=
  (validRows df).map (rowResultFor df budget)

/-- The function `evaluate_budget`. -/
def evaluateBudget (df : Frame) (budget : Budget) : BudgetVerdict :=
  let valid := validRows df
  let errorCount := df.rows.length - valid.length
  if valid.length == 0 then
    ⟨budget.name, "error", 0, 0, 0, errorCount, []⟩
  else
    let results := budgetResults df budget
    let passedCount := (results.filter (fun x => x.verdict == "pass")).length
    let failedCount := (results.filter (fun x => x.verdict == "fail")).length
    ⟨budget.name, if 0 < failedCount then "fail" else "pass",
      passedCount, failedCount, passedCount + failedCount, errorCount, results⟩

/-- The webhook-relevant arguments of `_apply_budget`. -/
structure ApplyArgs where
  webhook : Option String
  webhook_on : String
deriving DecidableEq

/-- The function `_apply_budget`: returns the exit code and whether the
webhook was sent.
On the `"error"` verdict it returns 1 before the webhook block is ever
reached; otherwise the webhook is sent when a URL is configured and
`webhook_on == "always"`, or `webhook_on == "fail"` on a failing
verdict; the exit code is `BUDGET_EXIT_CODE` on `"fail"`, else 0. -/
def applyBudget (df : Frame) (budget : Budget) (args : ApplyArgs) : Nat × Bool :=
  let v := evaluateBudget df budget
  if v.verdict == "error" then (1, false)
  else
    let sent :=
      match args.webhook with
      | some _ => args.webhook_on == "always" ||
          (args.webhook_on == "fail" && v.verdict == "fail")
      | none => false
    (if v.verdict == "fail" then BUDGET_EXIT_CODE else 0, sent)

end PageSpeed

namespace PageSpeed

/-! ## Helper lemmas -/

/-- Each loop iteration contributes at most one attempt event. -/
theorem fetchAux_attempts_le (responses : Nat → ApiResp) :
    ∀ fuel attempt,
      ((fetchAux responses fuel attempt).2.filter isAttemptEvent).length ≤ fuel := by
  intro fuel
  induction fuel with
  | zero => intro attempt; simp [fetchAux]
  | succ n ih =>
    intro attempt
    simp only [fetchAux]
    cases responses attempt with
    | http status hint body =>
      by_cases h200 : status == 200
      · simp [h200, isAttemptEvent]
      · by_cases hret : status ∈ RETRYABLE_STATUS_CODES
        · by_cases hlast : attempt < MAX_RETRIES
          · have h := ih (attempt + 1)
            simp [h200, hret, hlast, isAttemptEvent, List.filter_cons]
            omega
          · simp [h200, hret, hlast, isAttemptEvent]
        · simp [h200, hret, isAttemptEvent]
    | transportFail =>
      by_cases hlast : attempt < MAX_RETRIES
      · have h := ih (attempt + 1)
        simp [hlast, isAttemptEvent, List.filter_cons]
        omega
      · simp [hlast, isAttemptEvent]

/-- Lifted fetch events are never pacing events. -/
theorem filter_pacing_lift (evs : List FetchEvent) :
    (evs.map liftFetchEvent).filter isPacingEvent = [] := by
  induction evs with
  | nil => rfl
  | cons e t ih => cases e <;> simpa [liftFetchEvent, isPacingEvent] using ih

/-! ## Claim theorems: fetcher -/

/-- C2: in the retry loop, a retryable status waits
`RETRY_BASE_DELAY * 2^attempt` before the next attempt, except that a
429 carrying an explicit Retry-After hint waits exactly the hinted
value; the script [429 with hint 5s, 200] sleeps exactly [5.0] and the
script [500, 200] sleeps exactly [2.0]; at most `MAX_RETRIES = 3`
retries are made, so at most four attempts. -/
theorem retry_backoff_policy :
    fetchSleeps [ApiResp.http 429 (some 5) okBody, ApiResp.http 200 none okBody] = [5] ∧
    fetchSleeps [ApiResp.http 500 none okBody, ApiResp.http 200 none okBody] = [2] ∧
    (∀ attempt hint, waitTimeFor attempt 429 (some hint) = hint) ∧
    (∀ attempt status,
      waitTimeFor attempt status none = RETRY_BASE_DELAY * ((2 ^ attempt : ℕ) : ℚ)) ∧
    (∀ responses, fetchAttemptCount responses ≤ MAX_RETRIES + 1) := by
  refine ⟨?_, ?_, ?_, ?_, ?_⟩
  · norm_num [fetchSleeps, fetchScripted, fetchTrace, fetchAux, scriptResp,
      waitTimeFor, expBackoff, RETRYABLE_STATUS_CODES, MAX_RETRIES,
      RETRY_BASE_DELAY, okBody, sleepOfEvent, List.filterMap_cons]
  · norm_num [fetchSleeps, fetchScripted, fetchTrace, fetchAux, scriptResp,
      waitTimeFor, expBackoff, RETRYABLE_STATUS_CODES, MAX_RETRIES,
      RETRY_BASE_DELAY, okBody, sleepOfEvent, List.filterMap_cons]
  · intro attempt hint; simp [waitTimeFor]
  · intro attempt status; simp [waitTimeFor, expBackoff]
  · intro responses; exact fetchAux_attempts_le responses (MAX_RETRIES + 1) 0

/-- C3: evaluating the fetcher at an HTTP-200 response whose body embeds
an application-level error object and has no `lighthouseResult`: the
code returns the body as a success on the first attempt, with no retry
and no raised error — contradicting the specification and the
tests shipped with the repository, which require an immediately raised
non-retryable `PageSpeedError` for such a response. -/
theorem fetch_returns_error_body_as_success :
    fetchScripted [ApiResp.http 200 none ⟨true, false⟩] =
      (some ⟨true, false⟩, [FetchEvent.attemptStart 0]) ∧
    (⟨true, false⟩ : ApiBody).hasAppError = true ∧
    (⟨true, false⟩ : ApiBody).hasLighthouseResult = false := by
  refine ⟨?_, rfl, rfl⟩
  norm_num [fetchScripted, fetchTrace, fetchAux, scriptResp, MAX_RETRIES]

/-- C7 counterexample: for the script [500, 200] the task performs two
HTTP attempts but acquires the pacing gate only once, so the pacing
sleep is not applied before every attempt. -/
theorem pacing_not_per_attempt_counterexample :
    pacingCount (processSingleTrace
      (scriptResp [ApiResp.http 500 none okBody, ApiResp.http 200 none okBody])) = 1 ∧
    taskAttemptCount (processSingleTrace
      (scriptResp [ApiResp.http 500 none okBody, ApiResp.http 200 none okBody])) = 2 ∧
    (1 : Nat) ≠ 2 := by
  refine ⟨?_, ?_, by decide⟩
  · norm_num [pacingCount, processSingleTrace, fetchTrace, fetchAux, scriptResp,
      isPacingEvent, liftFetchEvent, RETRYABLE_STATUS_CODES, MAX_RETRIES, okBody]
  · norm_num [taskAttemptCount, processSingleTrace, fetchTrace, fetchAux, scriptResp,
      isTaskAttemptEvent, liftFetchEvent, RETRYABLE_STATUS_CODES, MAX_RETRIES, okBody]

/-! ## Claim theorems: dispatcher -/

/-- C6: the effective concurrency of the dispatcher is
`min(configured workers, total task count)`, and whenever that value is
≤ 1 the tasks are executed strictly sequentially: the results list is
exactly the input task list mapped in order, with one row per task at
the input position of the task. -/
theorem dispatcher_sequential_order {α : Type} (workers : Nat)
    (tasks : List (String × String)) (runOne : Nat → String × String → α)
    (order : List Nat) :
    effectiveWorkers workers tasks.length = min workers tasks.length ∧
    (effectiveWorkers workers tasks.length ≤ 1 →
      processUrlsResults workers tasks runOne order =
        tasks.enum.map (fun p => runOne p.1 p.2) ∧
      (processUrlsResults workers tasks runOne order).length = tasks.length ∧
      ∀ i, (processUrlsResults workers tasks runOne order).get? i =
        (tasks.get? i).map (runOne i)) := by
  refine ⟨rfl, fun h => ⟨?_, ?_, ?_⟩⟩
  · simp [processUrlsResults, h]
  · simp [processUrlsResults, h, List.enum_length]
  · intro i
    simp only [processUrlsResults, h, if_true, List.get?_eq_getElem?,
      List.getElem?_map, List.getElem?_enum, Option.map_map]
    rfl

/-- Concrete instantiation of the sequential-dispatch theorem: one
worker, two tasks, results in exact input order. -/
theorem dispatcher_sequential_order_witness :
    processUrlsResults 1 [("https://a.com", "mobile"), ("https://b.com", "mobile")]
        (fun i t => (i, t)) [] =
      [(0, ("https://a.com", "mobile")), (1, ("https://b.com", "mobile"))] := by
  have h := (dispatcher_sequential_order 1
    [("https://a.com", "mobile"), ("https://b.com", "mobile")]
    (fun i t => (i, t)) []).2 (by decide)
  exact h.1.trans (by decide)

/-! ## Claim theorems: pacing -/

/-- C7 amended: the mandatory inter-dispatch pacing sleep is applied
exactly once per task, before the first request attempt; the retry
attempts of a single task incur only the separate retry-backoff sleep,
not the pacing sleep. -/
theorem pacing_once_per_task (responses : Nat → ApiResp) :
    pacingCount (processSingleTrace responses) = 1 ∧
    (processSingleTrace responses).head? = some TaskEvent.pacingAcquire := by
  constructor
  · simp [pacingCount, processSingleTrace, List.filter_cons, isPacingEvent,
      filter_pacing_lift]
  · rfl

/-! ## Claim theorems: budget evaluator -/

/-- The verdict string of `evaluate_budget` is one of the three states. -/
theorem evaluateBudget_verdict_cases (df : Frame) (budget : Budget) :
    (evaluateBudget df budget).verdict = "error" ∨
    (evaluateBudget df budget).verdict = "fail" ∨
    (evaluateBudget df budget).verdict = "pass" := by
  by_cases h : (validRows df).length = 0
  · left; simp [evaluateBudget, h]
  · by_cases h2 : 0 <
      ((budgetResults df budget).filter (fun x => x.verdict == "fail")).length
    · right; left; simp [evaluateBudget, h, h2]
    · right; right; simp [evaluateBudget, h, h2]

/-- The failing-row count is positive exactly when some evaluable row
has a violation. -/
theorem fail_count_pos_iff (df : Frame) (budget : Budget) :
    (0 < ((budgetResults df budget).filter (fun x => x.verdict == "fail")).length) ↔
    ∃ r ∈ validRows df, rowViolations df budget.thresholds r ≠ [] := by
  rw [← List.countP_eq_length_filter, List.countP_pos_iff]
  constructor
  · rintro ⟨x, hx, hpx⟩
    rw [budgetResults, List.mem_map] at hx
    obtain ⟨r, hr, rfl⟩ := hx
    refine ⟨r, hr, ?_⟩
    intro hnil
    rw [rowResultFor] at hpx
    simp [hnil] at hpx
  · rintro ⟨r, hr, hne⟩
    refine ⟨rowResultFor df budget r, List.mem_map_of_mem _ hr, ?_⟩
    rw [rowResultFor]
    cases hv : rowViolations df budget.thresholds r with
    | nil => exact absurd hv hne
    | cons a t => simp [hv]

/-- C1: the overall verdict of `evaluate_budget` is `"fail"` iff at
least one evaluable (error-unset) row has at least one violation, and
`"pass"` when evaluable rows exist but none has a violation; when the
evaluable set is empty the verdict is the distinct `"error"` state with
zero passed and zero failed, and every input row is counted in
`errors_skipped`. -/
theorem budget_verdict_tristate (df : Frame) (budget : Budget) :
    ((evaluateBudget df budget).verdict = "fail" ↔
      validRows df ≠ [] ∧
        ∃ r ∈ validRows df, rowViolations df budget.thresholds r ≠ []) ∧
    (validRows df = [] →
      (evaluateBudget df budget).verdict = "error" ∧
      (evaluateBudget df budget).errors_skipped = df.rows.length ∧
      (evaluateBudget df budget).passed = 0 ∧
      (evaluateBudget df budget).failed = 0) ∧
    (validRows df ≠ [] →
      (∀ r ∈ validRows df, rowViolations df budget.thresholds r = []) →
      (evaluateBudget df budget).verdict = "pass") := by
  have hiff := fail_count_pos_iff df budget
  refine ⟨?_, ?_, ?_⟩
  · by_cases h : (validRows df).length = 0
    · have hnil : validRows df = [] := List.length_eq_zero.mp h
      simp [evaluateBudget, h, hnil]
    · have hne : validRows df ≠ [] := fun hnil => h (by rw [hnil]; rfl)
      have hvd : (evaluateBudget df budget).verdict =
          if 0 < ((budgetResults df budget).filter
            (fun x => x.verdict == "fail")).length then "fail" else "pass" := by
        simp [evaluateBudget, h]
      rw [hvd]
      by_cases h2 : 0 < ((budgetResults df budget).filter
        (fun x => x.verdict == "fail")).length
      · rw [if_pos h2]
        exact iff_of_true rfl ⟨hne, hiff.mp h2⟩
      · rw [if_neg h2]
        constructor
        · intro hcon; exact absurd hcon (by decide)
        · rintro ⟨_, hex⟩; exact absurd (hiff.mpr hex) h2
  · intro hnil
    have h : (validRows df).length = 0 := by rw [hnil]; rfl
    refine ⟨?_, ?_, ?_, ?_⟩ <;> simp [evaluateBudget, h]
  · intro hne hall
    have h : (validRows df).length ≠ 0 := fun h0 =>
      hne (List.length_eq_zero.mp h0)
    have h2 : ¬ 0 < ((budgetResults df budget).filter
        (fun x => x.verdict == "fail")).length := by
      intro hpos
      obtain ⟨r, hr, hne2⟩ := hiff.mp hpos
      exact hne2 (hall r hr)
    simp [evaluateBudget, h, h2]

/-- Concrete instantiation of the tri-state theorem: a frame whose only
row is errored evaluates to the `"error"` verdict. -/
theorem budget_verdict_tristate_witness :
    (evaluateBudget
        ⟨[⟨"https://a.com", "mobile", some "boom", []⟩],
         ["url", "strategy", "error"]⟩
        ⟨"b", []⟩).verdict = "error" :=
  ((budget_verdict_tristate
    ⟨[⟨"https://a.com", "mobile", some "boom", []⟩],
     ["url", "strategy", "error"]⟩
    ⟨"b", []⟩).2.1 (by decide)).1

/-- A row-result list whose verdicts are all `"pass"` or `"fail"`
partitions into the two filters. -/
theorem pass_fail_partition (rs : List RowResult)
    (h : ∀ r ∈ rs, r.verdict = "pass" ∨ r.verdict = "fail") :
    (rs.filter (fun x => x.verdict == "pass")).length +
      (rs.filter (fun x => x.verdict == "fail")).length = rs.length := by
  induction rs with
  | nil => rfl
  | cons a t ih =>
    have ha := h a (List.mem_cons_self a t)
    have ht := ih (fun r hr => h r (List.mem_cons_of_mem a hr))
    rcases ha with ha | ha <;>
      simp only [List.filter_cons, ha, List.length_cons] <;>
      simp only [show (("pass" : String) == "fail") = false from by decide,
        show (("fail" : String) == "pass") = false from by decide,
        show (("pass" : String) == "pass") = true from by decide,
        show (("fail" : String) == "fail") = true from by decide,
        if_true, if_false, Bool.false_eq_true, List.length_cons] <;>
      omega

/-- Every produced row-result verdict is `"pass"` or `"fail"`. -/
theorem budgetResults_verdicts (df : Frame) (budget : Budget) :
    ∀ res ∈ budgetResults df budget,
      res.verdict = "pass" ∨ res.verdict = "fail" := by
  intro res hres
  rw [budgetResults, List.mem_map] at hres
  obtain ⟨r, _, rfl⟩ := hres
  rw [rowResultFor]
  by_cases hv : (rowViolations df budget.thresholds r).isEmpty
  · left; simp [hv]
  · right; simp [hv]

/-- The evaluable set never exceeds the input row count. -/
theorem validRows_length_le (df : Frame) :
    (validRows df).length ≤ df.rows.length := by
  rw [validRows]
  split
  · exact List.length_filter_le _ _
  · exact Nat.le_refl _

/-- C9: the verdict of `evaluate_budget` satisfies
`passed + failed = total`, `total + errors_skipped = #input rows`, and
each per-row result is `"pass"` exactly when its violations list is
empty. -/
theorem budget_count_invariants (df : Frame) (budget : Budget) :
    (evaluateBudget df budget).passed + (evaluateBudget df budget).failed =
      (evaluateBudget df budget).total ∧
    (evaluateBudget df budget).total + (evaluateBudget df budget).errors_skipped =
      df.rows.length ∧
    ∀ res ∈ (evaluateBudget df budget).results,
      (res.verdict = "pass" ↔ res.violations = []) := by
  have hle := validRows_length_le df
  by_cases h : (validRows df).length = 0
  · refine ⟨?_, ?_, ?_⟩ <;> simp [evaluateBudget, h]
  · have hpf := pass_fail_partition (budgetResults df budget)
      (budgetResults_verdicts df budget)
    have hlen : (budgetResults df budget).length = (validRows df).length := by
      rw [budgetResults, List.length_map]
    refine ⟨?_, ?_, ?_⟩
    · simp [evaluateBudget, h]
    · have htot : (evaluateBudget df budget).total = (validRows df).length := by
        simp only [evaluateBudget, h]
        simp only [Nat.zero_eq, beq_iff_eq, h, if_false]
        rw [hpf, hlen]
      have herr : (evaluateBudget df budget).errors_skipped =
          df.rows.length - (validRows df).length := by
        simp [evaluateBudget, h]
      rw [htot, herr]
      omega
    · intro res hres
      have hres2 : res ∈ budgetResults df budget := by
        have : (evaluateBudget df budget).results = budgetResults df budget := by
          simp [evaluateBudget, h]
        rwa [this] at hres
      rw [budgetResults, List.mem_map] at hres2
      obtain ⟨r, _, rfl⟩ := hres2
      rw [rowResultFor]
      cases hv : rowViolations df budget.thresholds r with
      | nil => simp [hv]
      | cons a t => simp [hv]

/-- Concrete instantiation of the count-invariant theorem at a
one-row passing frame: the produced row result is a pass with an empty
violations list. -/
theorem budget_count_invariants_witness :
    ((⟨"https://a.com", "mobile", "pass", []⟩ : RowResult).verdict = "pass" ↔
      (⟨"https://a.com", "mobile", "pass", []⟩ : RowResult).violations = []) :=
  (budget_count_invariants
      ⟨[⟨"https://a.com", "mobile", none, [("performance_score", 90)]⟩],
       ["url", "strategy", "error", "performance_score"]⟩
      ⟨"b", [("min_performance_score", 90)]⟩).2.2
    ⟨"https://a.com", "mobile", "pass", []⟩ (by decide)

/-- C8: a minimum-score rule is boundary-inclusive: budget
`min_performance_score = 90` against `performance_score = 89` yields
exactly one violation recording metric `performance_score`, actual 89,
threshold 90 and direction `>=`, and the row fails; against
`performance_score = 90` the row passes with zero violations. -/
theorem min_score_rule_boundary :
    (evaluateBudget
        ⟨[⟨"https://a.com", "mobile", none, [("performance_score", 89)]⟩],
         ["url", "strategy", "error", "performance_score"]⟩
        ⟨"b", [("min_performance_score", 90)]⟩).results =
      [⟨"https://a.com", "mobile", "fail", [⟨"performance_score", 89, 90, ">="⟩]⟩] ∧
    (evaluateBudget
        ⟨[⟨"https://a.com", "mobile", none, [("performance_score", 89)]⟩],
         ["url", "strategy", "error", "performance_score"]⟩
        ⟨"b", [("min_performance_score", 90)]⟩).verdict = "fail" ∧
    (evaluateBudget
        ⟨[⟨"https://a.com", "mobile", none, [("performance_score", 90)]⟩],
         ["url", "strategy", "error", "performance_score"]⟩
        ⟨"b", [("min_performance_score", 90)]⟩).results =
      [⟨"https://a.com", "mobile", "pass", []⟩] ∧
    (evaluateBudget
        ⟨[⟨"https://a.com", "mobile", none, [("performance_score", 90)]⟩],
         ["url", "strategy", "error", "performance_score"]⟩
        ⟨"b", [("min_performance_score", 90)]⟩).verdict = "pass" := by
  refine ⟨?_, ?_, ?_, ?_⟩ <;> decide

/-- C10: when the budget verdict is the `"error"` tri-state,
`_apply_budget` returns exit code 1 and never sends the webhook, for
every webhook configuration including `webhook_on = "always"`; whenever
the webhook is sent, the verdict was `"pass"` or `"fail"`. -/
theorem apply_budget_error_no_webhook (df : Frame) (budget : Budget) (args : ApplyArgs) :
    ((evaluateBudget df budget).verdict = "error" →
      applyBudget df budget args = (1, false)) ∧
    ((applyBudget df budget args).2 = true →
      (evaluateBudget df budget).verdict = "pass" ∨
      (evaluateBudget df budget).verdict = "fail") := by
  constructor
  · intro h
    simp [applyBudget, h]
  · intro h
    rcases evaluateBudget_verdict_cases df budget with hv | hv | hv
    · simp [applyBudget, hv] at h
    · right; exact hv
    · left; exact hv

/-- Concrete instantiation of the error-verdict theorem: a frame whose
only row is errored, a webhook configured with `webhook_on = "always"`:
exit code 1, webhook not sent. -/
theorem apply_budget_error_no_webhook_witness :
    applyBudget
      ⟨[⟨"https://a.com", "mobile", some "boom", []⟩], ["url", "strategy", "error"]⟩
      ⟨"b", [("min_performance_score", 90)]⟩
      ⟨some "https://hook.example", "always"⟩ = (1, false) :=
  (apply_budget_error_no_webhook
    ⟨[⟨"https://a.com", "mobile", some "boom", []⟩], ["url", "strategy", "error"]⟩
    ⟨"b", [("min_performance_score", 90)]⟩
    ⟨some "https://hook.example", "always"⟩).1 (by decide)

/-! ## Claim theorems: field-metric extraction -/

/-- A key not containing the substring `"CLS"` makes the value column a
pure pass-through of the raw percentile. -/
theorem extractFieldValue_of_not_cls (md : List (String × FieldMetricData))
    (k : String) (hk : pyIn "CLS" k = false) :
    extractFieldValue md k = (lookupFieldMetric md k).percentile := by
  unfold extractFieldValue
  cases (lookupFieldMetric md k).percentile <;> simp [hk]

/-- C4: in `extract_metrics` every field percentile passes through
unchanged except for metrics whose API key contains the literal
substring `"CLS"`, which are divided by 100 and rounded to 4 decimals;
no key of the `FIELD_METRICS` catalog (in particular
`CUMULATIVE_LAYOUT_SHIFT_SCORE`) contains that substring, so the field
layout-shift percentile is left unscaled for every input payload. -/
theorem field_percentile_passthrough :
    (∀ e ∈ FIELD_METRICS, pyIn "CLS" e.1 = false) ∧
    ("CUMULATIVE_LAYOUT_SHIFT_SCORE", "field_cls", "field_cls_category") ∈
      FIELD_METRICS ∧
    (∀ (md : List (String × FieldMetricData)), ∀ e ∈ FIELD_METRICS,
      extractFieldValue md e.1 = (lookupFieldMetric md e.1).percentile) ∧
    (∀ (md : List (String × FieldMetricData)) (k : String) (p : ℚ),
      pyIn "CLS" k = true → (lookupFieldMetric md k).percentile = some p →
      extractFieldValue md k = some (pyRound4 (p / 100))) := by
  refine ⟨by decide, by decide, ?_, ?_⟩
  · intro md e he
    apply extractFieldValue_of_not_cls
    revert he
    have : ∀ x ∈ FIELD_METRICS, pyIn "CLS" x.1 = false := by decide
    exact this e
  · intro md k p hk hp
    unfold extractFieldValue
    rw [hp]
    simp [hk]

/-! ## Claim theorems: categorical aggregation -/

/-- Code-point comparison is irreflexive. -/
theorem charsLt_irrefl : ∀ l, charsLt l l = false := by
  intro l
  induction l with
  | nil => rfl
  | cons a as ih => simp [charsLt, ih, Nat.lt_irrefl]

/-- Code-point comparison is asymmetric. -/
theorem charsLt_asymm : ∀ l₁ l₂, charsLt l₁ l₂ = true → charsLt l₂ l₁ = false := by
  intro l₁
  induction l₁ with
  | nil =>
    intro l₂ h
    cases l₂ with
    | nil => simpa [charsLt] using h
    | cons b bs => rfl
  | cons a as ih =>
    intro l₂ h
    cases l₂ with
    | nil => simpa [charsLt] using h
    | cons b bs =>
      simp only [charsLt, Bool.or_eq_true, Bool.and_eq_true, decide_eq_true_eq,
        beq_iff_eq, Bool.or_eq_false_iff, Bool.and_eq_false_iff,
        decide_eq_false_iff_not, beq_eq_false_iff_ne, ne_eq] at h ⊢
      rcases h with h | ⟨heq, hlt⟩
      · exact ⟨by omega, Or.inl (by omega)⟩
      · exact ⟨by omega, Or.inr (ih bs hlt)⟩

/-- Negated code-point comparison is transitive:
`l₁ ≤ l₂ → l₂ ≤ l₃ → l₁ ≤ l₃`. -/
theorem charsLt_negTrans :
    ∀ l₁ l₂ l₃, charsLt l₂ l₁ = false → charsLt l₃ l₂ = false →
      charsLt l₃ l₁ = false := by
  intro l₁
  induction l₁ with
  | nil =>
    intro l₂ l₃ _ _
    cases l₃ with
    | nil => rfl
    | cons c cs =>
      cases l₂ with
      | nil => rfl
      | cons b bs => rfl
  | cons a as ih =>
    intro l₂ l₃ h₁ h₂
    cases l₂ with
    | nil => simp [charsLt] at h₁
    | cons b bs =>
      cases l₃ with
      | nil => simp [charsLt] at h₂
      | cons c cs =>
        simp only [charsLt, Bool.or_eq_false_iff, Bool.and_eq_false_iff,
          decide_eq_false_iff_not, beq_eq_false_iff_ne, ne_eq,
          Bool.not_eq_true] at h₁ h₂ ⊢
        obtain ⟨hba, h₁r⟩ := h₁
        obtain ⟨hcb, h₂r⟩ := h₂
        refine ⟨by omega, ?_⟩
        by_cases hca : c.toNat = a.toNat
        · right
          have hba2 : b.toNat = a.toNat := by omega
          have hcb2 : c.toNat = b.toNat := by omega
          have h₁v : charsLt bs as = false := by
            rcases h₁r with h | h
            · exact absurd hba2 h
            · exact h
          have h₂v : charsLt cs bs = false := by
            rcases h₂r with h | h
            · exact absurd hcb2 h
            · exact h
          exact ih bs cs h₁v h₂v
        · left; exact hca

/-- Python string order: irreflexive. -/
theorem strLt_irrefl (a : String) : strLt a a = false := charsLt_irrefl _

/-- Python string order: asymmetric. -/
theorem strLt_asymm {a b : String} (h : strLt a b = true) : strLt b a = false :=
  charsLt_asymm _ _ h

/-- Python string order: `a ≤ b → b ≤ c → a ≤ c` in negated form. -/
theorem strLt_negTrans {a b c : String} (h₁ : strLt b a = false)
    (h₂ : strLt c b = false) : strLt c a = false :=
  charsLt_negTrans _ _ _ h₁ h₂

/-- The left fold with binary minimum returns an element of
`acc :: xs` that is minimal for Python string order. -/
theorem foldl_min_spec (xs : List String) : ∀ acc : String,
    (xs.foldl (fun a b => if strLt b a then b else a) acc = acc ∨
      xs.foldl (fun a b => if strLt b a then b else a) acc ∈ xs) ∧
    strLt acc (xs.foldl (fun a b => if strLt b a then b else a) acc) = false ∧
    ∀ v ∈ xs, strLt v (xs.foldl (fun a b => if strLt b a then b else a) acc) = false := by
  induction xs with
  | nil =>
    intro acc
    exact ⟨Or.inl rfl, strLt_irrefl acc, by simp⟩
  | cons b bs ih =>
    intro acc
    simp only [List.foldl_cons]
    set acc2 := if strLt b acc then b else acc with hacc2def
    obtain ⟨hmem, hacc, hall⟩ := ih acc2
    have hb2 : strLt b acc2 = false := by
      by_cases hba : strLt b acc = true
      · rw [hacc2def, if_pos hba]; exact strLt_irrefl b
      · rw [hacc2def, if_neg hba]; exact Bool.eq_false_iff.mpr hba
    have hacc2le : strLt acc acc2 = false := by
      by_cases hba : strLt b acc = true
      · rw [hacc2def, if_pos hba]; exact strLt_asymm hba
      · rw [hacc2def, if_neg hba]; exact strLt_irrefl acc
    refine ⟨?_, strLt_negTrans hacc hacc2le, ?_⟩
    · rcases hmem with h | h
      · by_cases hba : strLt b acc = true
        · right
          rw [h, hacc2def, if_pos hba]
          exact List.mem_cons_self b bs
        · left
          rw [h, hacc2def, if_neg hba]
      · right; exact List.mem_cons_of_mem b h
    · intro v hv
      rcases List.mem_cons.mp hv with rfl | hv
      · exact strLt_negTrans hacc hb2
      · exact hall v hv

/-- A nonempty list has an element maximizing any `Nat`-valued score. -/
theorem exists_max_by (f : String → Nat) :
    ∀ l : List String, l ≠ [] → ∃ m ∈ l, ∀ v ∈ l, f v ≤ f m := by
  intro l
  induction l with
  | nil => intro h; exact absurd rfl h
  | cons a t ih =>
    intro _
    cases t with
    | nil =>
      refine ⟨a, List.mem_cons_self a [], ?_⟩
      intro v hv
      rcases List.mem_cons.mp hv with rfl | hv
      · exact Nat.le_refl _
      · simp at hv
    | cons b u =>
      obtain ⟨m, hm, hmax⟩ := ih (by simp)
      by_cases hc : f m ≤ f a
      · refine ⟨a, List.mem_cons_self a _, ?_⟩
        intro v hv
        rcases List.mem_cons.mp hv with rfl | hv
        · exact Nat.le_refl _
        · exact Nat.le_trans (hmax v hv) hc
      · refine ⟨m, List.mem_cons_of_mem a hm, ?_⟩
        intro v hv
        rcases List.mem_cons.mp hv with rfl | hv
        · exact Nat.le_of_lt (Nat.lt_of_not_le hc)
        · exact hmax v hv

/-- The list `modeCandidates` of a nonempty series is nonempty. -/
theorem modeCandidates_ne_nil (vs : List String) (h : vs ≠ []) :
    modeCandidates vs ≠ [] := by
  obtain ⟨m, hm, hmax⟩ := exists_max_by (fun v => vs.count v) vs h
  have hmem : m ∈ modeCandidates vs := by
    rw [modeCandidates]
    refine List.mem_filter.mpr ⟨hm, ?_⟩
    simp only [List.all_eq_true, decide_eq_true_eq]
    exact fun w hw => hmax w hw
  exact List.ne_nil_of_mem hmem

/-- Applied to a nonempty series, `modeIloc0` returns a value of maximal
multiplicity that is smallest, in Python string order, among the tied
most-frequent values. -/
theorem modeIloc0_spec (vs : List String) (h : vs ≠ []) :
    ∃ m, modeIloc0 vs = some m ∧ m ∈ vs ∧
      (∀ v ∈ vs, vs.count v ≤ vs.count m) ∧
      (∀ v ∈ vs, vs.count v = vs.count m → strLt v m = false) := by
  have hc := modeCandidates_ne_nil vs h
  cases hcand : modeCandidates vs with
  | nil => exact absurd hcand hc
  | cons x xs =>
    obtain ⟨hmem, haccO, hall⟩ := foldl_min_spec xs x
    have hmemc : xs.foldl (fun a b => if strLt b a then b else a) x ∈
        modeCandidates vs := by
      rw [hcand]
      rcases hmem with hx | hx
      · rw [hx]; exact List.mem_cons_self x xs
      · exact List.mem_cons_of_mem x hx
    have hmemc2 := hmemc
    rw [modeCandidates] at hmemc2
    have hfilt := List.mem_filter.mp hmemc2
    have hmvs : xs.foldl (fun a b => if strLt b a then b else a) x ∈ vs :=
      hfilt.1
    have hmax : ∀ w ∈ vs, vs.count w ≤
        vs.count (xs.foldl (fun a b => if strLt b a then b else a) x) := by
      have := hfilt.2
      simp only [List.all_eq_true, decide_eq_true_eq] at this
      exact this
    refine ⟨xs.foldl (fun a b => if strLt b a then b else a) x, ?_, hmvs, hmax, ?_⟩
    · rw [modeIloc0, hcand]; rfl
    · intro v hv hcnt
      have hvc : v ∈ modeCandidates vs := by
        rw [modeCandidates]
        refine List.mem_filter.mpr ⟨hv, ?_⟩
        simp only [List.all_eq_true, decide_eq_true_eq]
        intro w hw
        rw [hcnt]
        exact hmax w hw
      rw [hcand] at hvc
      rcases List.mem_cons.mp hvc with rfl | hvx
      · exact haccO
      · exact hall v hvx

/-- C5 counterexample: aggregating a group of two successful rows whose
categorical values are, in row order, "FAST" then "AVERAGE" (a tie at
one occurrence each): the code produces "AVERAGE" — the smallest tied
value — while a first-encountered tie-break would produce "FAST". -/
theorem mode_tiebreak_counterexample :
    aggCategoricalGroup [(none, some "FAST"), (none, some "AVERAGE")] =
      some "AVERAGE" ∧
    aggCategoricalGroupSpec [(none, some "FAST"), (none, some "AVERAGE")] =
      some "FAST" ∧
    (some "AVERAGE" : Option String) ≠ some "FAST" := by
  refine ⟨by decide, by decide, by decide⟩

/-- C5 amended: for every categorical bucket column the aggregator takes
the statistical mode of the values of the successful rows, and when several
values are tied for most frequent the tie is broken in favor of the
smallest tied value in Python string order (pandas `mode()` returns the
tied values sorted ascending), not the first-encountered value. -/
theorem agg_categorical_mode_smallest
    (group : List (Option String × Option String))
    (h : groupSuccessVals group ≠ []) :
    ∃ m, aggCategoricalGroup group = some m ∧ m ∈ groupSuccessVals group ∧
      (∀ v ∈ groupSuccessVals group,
        (groupSuccessVals group).count v ≤ (groupSuccessVals group).count m) ∧
      (∀ v ∈ groupSuccessVals group,
        (groupSuccessVals group).count v = (groupSuccessVals group).count m →
          strLt v m = false) := by
  have hrw : aggCategoricalGroup group =
      if (groupSuccessVals group).isEmpty then none
      else modeIloc0 (groupSuccessVals group) := rfl
  rw [hrw, if_neg (by simp [List.isEmpty_iff, h])]
  exact modeIloc0_spec (groupSuccessVals group) h

/-- Concrete instantiation of the amended mode theorem at the
counterexample group. -/
theorem agg_categorical_mode_smallest_witness :
    (aggCategoricalGroup [(none, some "FAST"), (none, some "AVERAGE")]).isSome
      = true := by
  obtain ⟨m, hm, -, -, -⟩ := agg_categorical_mode_smallest
    [(none, some "FAST"), (none, some "AVERAGE")] (by decide)
  rw [hm]
  rfl

/-- Concrete instantiation of the pass-through theorem: the raw payload
reports the field layout-shift percentile as 10 and the extracted
`field_cls` value is exactly 10, unscaled. -/
theorem field_percentile_passthrough_witness :
    extractFieldValue
      [("CUMULATIVE_LAYOUT_SHIFT_SCORE", ⟨some 10, some "FAST"⟩)]
      "CUMULATIVE_LAYOUT_SHIFT_SCORE" = some 10 := by
  have h := field_percentile_passthrough.2.2.1
    [("CUMULATIVE_LAYOUT_SHIFT_SCORE", ⟨some 10, some "FAST"⟩)]
    ("CUMULATIVE_LAYOUT_SHIFT_SCORE", "field_cls", "field_cls_category")
    (by decide)
  exact h.trans (by decide)

end PageSpeed
